import Mathlib

/-!
# Verification of the charmvpn menu tool (src/main.go)

A shallow embedding of the Go program in `src/main.go`.  The external
world (the `nmcli` backend, the current user's home directory, the
filesystem) is modelled by an `Env` record; every function of the program
that shells out is embedded as a pure function of the `Env`, returning its
result together with the trace of external calls it performs.

String primitives used by the Go code (`strings.Split`, `strings.Contains`,
`strings.TrimSpace`, `strings.HasSuffix`, `filepath.Join`/`Clean`) are
translated over `List Char` so that their behaviour can be reasoned about
directly.
-/

namespace CharmVPN

/-- Go `strings.Split(s, sep)` for a single-character separator, over a
character list.  Like Go's `Split`, the result is never empty and splitting
the empty string yields `[[]]`. -/
def splitCharList (c : Char) : List Char → List (List Char)
  | [] => [[]]
  | x :: xs =>
    if x = c then [] :: splitCharList c xs
    else
      match splitCharList c xs with
      | [] => [[x]]
      | f :: r => (x :: f) :: r

/-- Inverse of splitting: interleave the separator back. -/
def joinChar (c : Char) : List (List Char) → List Char
  | [] => []
  | [l] => l
  | l :: ls => l ++ c :: joinChar c ls

/-- Go `strings.Split(s, sep)` for a one-character `sep`, on `String`. -/
def goSplit (c : Char) (s : String) : List String :=
  (splitCharList c s.data).map String.mk

/-- Substring containment over character lists: `sub` occurs contiguously
in the list. -/
def containsChars (sub : List Char) : List Char → Bool
  | [] => sub.isEmpty
  | x :: xs => sub.isPrefixOf (x :: xs) || containsChars sub xs

/-- Go `strings.Contains(s, sub)`: substring containment. -/
def goContains (s sub : String) : Bool :=
  containsChars sub.data s.data

/-- Go `strings.HasSuffix(s, suf)`. -/
def goHasSuffix (s suf : String) : Bool :=
  List.isSuffixOf suf.data s.data

/-- Go `strings.TrimSpace` (ASCII whitespace: space, tab, CR, LF; the Go
original also trims a few rarer Unicode space characters, which never occur
in the outputs considered here). -/
def trimCharList (l : List Char) : List Char :=
  ((l.dropWhile Char.isWhitespace).reverse.dropWhile Char.isWhitespace).reverse

/-- `strings.TrimSpace` on `String`. -/
def goTrimSpace (s : String) : String :=
  String.mk (trimCharList s.data)

/-- Splitting never produces the empty list (so Go's `Split(...)[0]` is
always in bounds). -/
theorem splitCharList_ne_nil (c : Char) (l : List Char) :
    splitCharList c l ≠ [] := by
  induction l with
  | nil => simp [splitCharList]
  | cons x xs ih =>
    simp only [splitCharList]
    by_cases h : x = c
    · simp [h]
    · simp only [h, if_false]
      cases hs : splitCharList c xs with
      | nil => simp
      | cons f r => simp

/-- `goSplit` never returns the empty list. -/
theorem goSplit_ne_nil (c : Char) (s : String) : goSplit c s ≠ [] := by
  intro h
  exact splitCharList_ne_nil c s.data (by simpa [goSplit] using congrArg (List.map String.data) h)

/-- Joining undoes splitting. -/
theorem joinChar_splitCharList (c : Char) (l : List Char) :
    joinChar c (splitCharList c l) = l := by
  induction l with
  | nil => simp [splitCharList, joinChar]
  | cons x xs ih =>
    simp only [splitCharList]
    by_cases h : x = c
    · subst h
      simp only [if_pos rfl]
      cases hs : splitCharList x xs with
      | nil => exact absurd hs (splitCharList_ne_nil x xs)
      | cons f r =>
        rw [hs] at ih
        simp [joinChar, ih]
    · simp only [h, if_false]
      cases hs : splitCharList c xs with
      | nil => exact absurd hs (splitCharList_ne_nil c xs)
      | cons f r =>
        rw [hs] at ih
        cases r with
        | nil => simp [joinChar] at ih ⊢; exact ih
        | cons g rs => simp [joinChar] at ih ⊢; exact ih

/-- The first split field is the run of characters before the first
separator. -/
theorem splitCharList_head (c : Char) (l : List Char) :
    (splitCharList c l).headD [] = l.takeWhile (fun a => a ≠ c) := by
  induction l with
  | nil => simp [splitCharList]
  | cons x xs ih =>
    simp only [splitCharList, List.takeWhile]
    by_cases h : x = c
    · simp [h]
    · simp only [h, if_false]
      cases hs : splitCharList c xs with
      | nil => exact absurd hs (splitCharList_ne_nil c xs)
      | cons f r =>
        rw [hs] at ih
        simp at ih
        simp [decide_eq_true_eq, h, ih]

/-! ## The external world and the call trace -/

/-- One external effect performed by the program: an invocation of an
external command via `executeCommand` (Go: `exec.Command(...).CombinedOutput`),
or a file write (Go: `os.WriteFile`). -/
inductive Call where
  | exec (cmd : String) (args : List String)
  | write (path : String) (content : String)
deriving DecidableEq, Repr

/-- The external world the program runs against.
`run cmd args` yields the outcome of one external invocation:
`(some err, out)` models a non-nil Go error `err` with combined output
`out`; `(none, out)` models success with output `out`.
`homeDir` models `user.Current()` (`.ok home` or `.error msg`), and
`write path content` models `os.WriteFile` (`none` on success,
`some err` on failure). -/
structure Env where
  run : String → List String → Option String × String
  homeDir : Except String String
  write : String → String → Option String

/-- Go `executeCommand` (src/main.go:27-34): returns the combined output,
or `"Error: <err>\n<output>"` when the invocation fails. -/
def executeCommand (env : Env) (cmd : String) (args : List String) : String :=
  match env.run cmd args with
  | (some e, out) => "Error: " ++ e ++ "\n" ++ out
  | (none, out) => out

/-! ## Parsing of `nmcli` listing output -/

/-- Arguments of the full listing query
(`nmcli -t -f NAME,TYPE connection show`). -/
def listCmdArgs : List String :=
  ["-t", "-f", "NAME,TYPE", "connection", "show"]

/-- Arguments of the active-connection listing query
(`nmcli -t -f NAME,TYPE connection show --active`). -/
def activeCmdArgs : List String :=
  ["-t", "-f", "NAME,TYPE", "connection", "show", "--active"]

/-- Go `strings.Split(line, ":")[0]`: the text before the first colon
(total, because splitting never yields an empty list). -/
def firstField (line : String) : String :=
  (goSplit ':' line).headD ""

/-- The filtering loop the Go source repeats verbatim in `listVPNs`
(lines 41-46), `getVPNList` (66-71) and `getActiveVPNs` (84-89):
keep every line containing the substring `":vpn"`, appending the text
before its first colon. -/
def parseVPNLines (lines : List String) : List String :=
  lines.foldl
    (fun vpns line =>
      if goContains line ":vpn" then vpns ++ [firstField line] else vpns)
    []

/-- Go `getVPNList` (src/main.go:61-73): query the listing and parse the
VPN names out of it. -/
def getVPNList (env : Env) : List String :=
  parseVPNLines (goSplit '\n' (goTrimSpace (executeCommand env "nmcli" listCmdArgs)))

/-- Go `getActiveVPNs` (src/main.go:79-91), together with the trace of
external calls it performs (exactly the one listing query). -/
def getActiveVPNs (env : Env) : List String × List Call :=
  (parseVPNLines (goSplit '\n' (goTrimSpace (executeCommand env "nmcli" activeCmdArgs))),
   [Call.exec "nmcli" activeCmdArgs])

/-- Go `listVPNs` (src/main.go:36-59): the display-oriented listing.
Parses exactly as `getVPNList` and renders either the fixed notice or a
numbered enumeration built with a `strings.Builder`. -/
def listVPNs (env : Env) : String :=
  let output := executeCommand env "nmcli" listCmdArgs
  let vpns := parseVPNLines (goSplit '\n' (goTrimSpace output))
  if vpns.length = 0 then "No VPN connections found"
  else
    vpns.enum.foldl
      (fun acc p => acc ++ (toString (p.1 + 1) ++ ". " ++ p.2 ++ "\n"))
      "Available VPN connections:\n"

/-- Go `disconnectVPN` (src/main.go:93-105), with its call trace: fetch
the active set; if empty return the fixed notice, else bring each entry
down in order, appending one formatted result line per entry. -/
def disconnectVPN (env : Env) : String × List Call :=
  let fetched := getActiveVPNs env
  if fetched.1.length = 0 then ("No active VPN connections found", fetched.2)
  else
    fetched.1.foldl
      (fun acc vpn =>
        let output := executeCommand env "nmcli" ["connection", "down", vpn]
        (acc.1 ++ ("Disconnecting " ++ vpn ++ ": " ++ output ++ "\n"),
         acc.2 ++ [Call.exec "nmcli" ["connection", "down", vpn]]))
      ("", fetched.2)

/-- Go `vpnStatus` (src/main.go:107-122), with its call trace: fetch the
active set; if empty return the fixed message, else fetch details of each
active entry and append one labelled block per entry. -/
def vpnStatus (env : Env) : String × List Call :=
  let fetched := getActiveVPNs env
  if fetched.1.length = 0 then ("No active VPN connections", fetched.2)
  else
    fetched.1.foldl
      (fun acc vpn =>
        let details := executeCommand env "nmcli" ["connection", "show", vpn]
        (acc.1 ++ ("--- " ++ vpn ++ " ---\n" ++ details ++ "\n"),
         acc.2 ++ [Call.exec "nmcli" ["connection", "show", vpn]]))
      ("Active VPN connections:\n", fetched.2)

/-! ## Path handling (`filepath.Join`, `filepath.Clean`) and `exportVPN` -/

/-- Stack-based processing of the slash-separated components of a path,
modelling the lexical simplification performed by Go's `filepath.Clean`:
empty and `"."` components are dropped; a `".."` component pops the last
kept component, except that it is dropped at the root of a rooted path and
kept after a leading run of `".."` in a relative path.  The `stack`
accumulates kept components in reverse order. -/
def cleanStack (rooted : Bool) : List (List Char) → List (List Char) → List (List Char)
  | stack, [] => stack
  | stack, comp :: rest =>
    if comp.isEmpty ∨ comp = ['.'] then cleanStack rooted stack rest
    else if comp = ['.', '.'] then
      match stack with
      | [] =>
        if rooted then cleanStack rooted [] rest
        else cleanStack rooted [['.', '.']] rest
      | top :: stack' =>
        if top = ['.', '.'] then cleanStack rooted (comp :: top :: stack') rest
        else cleanStack rooted stack' rest
    else cleanStack rooted (comp :: stack) rest

/-- Go `path/filepath.Clean` (Unix separators): lexical simplification of
a path — collapse duplicate slashes, drop `"."` components, resolve `".."`
components, yielding `"."` for an empty result and keeping the root of a
rooted path. -/
def filepathClean (p : String) : String :=
  if p = "" then "."
  else
    let rooted := p.data.head? == some '/'
    let comps := splitCharList '/' p.data
    let stack := (cleanStack rooted [] comps).reverse
    if rooted then String.mk ('/' :: joinChar '/' stack)
    else if stack = [] then "." else String.mk (joinChar '/' stack)

/-- Go `filepath.Join(a, b)` for two elements: drop empty elements, join
the rest with a slash, and `Clean` the result. -/
def filepathJoin (a b : String) : String :=
  if a = "" ∧ b = "" then ""
  else if a = "" then filepathClean b
  else if b = "" then filepathClean a
  else filepathClean (a ++ "/" ++ b)

/-- The suffix normalisation of the non-empty-destination branch of
`exportVPN` (src/main.go:140-142): append `".ovpn"` unless already
present. -/
def appendOvpnSuffix (p : String) : String :=
  if goHasSuffix p ".ovpn" then p else p ++ ".ovpn"

/-- The destination-resolution prelude of `exportVPN` (src/main.go:133-143):
an empty destination resolves to `<home>/<name>.ovpn` (failing when
`user.Current()` fails, with the Go `"Error: %s"` formatting), a non-empty
one is suffix-normalised. -/
def resolveExportPath (homeDir : Except String String) (vpnName outputPath : String) :
    Except String String :=
  if outputPath = "" then
    match homeDir with
    | .error e => .error ("Error: " ++ e)
    | .ok home => .ok (filepathJoin home (vpnName ++ ".ovpn"))
  else .ok (appendOvpnSuffix outputPath)

/-- Go `exportVPN` (src/main.go:132-156), with its call trace: resolve the
destination, run the privileged export, treat any output containing
`"Error"` as failure (returning it without writing), otherwise write the
file and report success or the write error. -/
def exportVPN (env : Env) (vpnName outputPath : String) : String × List Call :=
  match resolveExportPath env.homeDir vpnName outputPath with
  | .error msg => (msg, [])
  | .ok outPath =>
    let output := executeCommand env "sudo" ["nmcli", "connection", "export", vpnName]
    if goContains output "Error" then
      (output, [Call.exec "sudo" ["nmcli", "connection", "export", vpnName]])
    else
      match env.write outPath output with
      | some e =>
        ("Error writing to file: " ++ e,
         [Call.exec "sudo" ["nmcli", "connection", "export", vpnName],
          Call.write outPath output])
      | none =>
        ("Successfully exported VPN configuration to " ++ outPath,
         [Call.exec "sudo" ["nmcli", "connection", "export", vpnName],
          Call.write outPath output])

/-! ## Characterisation of the parsing loop -/

/-- Concatenation of a list of strings. -/
def strConcat : List String → String
  | [] => ""
  | s :: r => s ++ strConcat r

/-- Folding string concatenation over a list is appending the
concatenation of its images. -/
theorem foldl_append_strConcat {α : Type} (f : α → String) (l : List α) (a : String) :
    l.foldl (fun acc x => acc ++ f x) a = a ++ strConcat (l.map f) := by
  induction l generalizing a with
  | nil => simp [strConcat]
  | cons x xs ih => simp [strConcat, ih, String.append_assoc]

/-- The accumulating filter loop is a `filter` followed by a `map`. -/
theorem parseVPNLines_loop (lines : List String) (acc : List String) :
    lines.foldl
      (fun vpns line =>
        if goContains line ":vpn" then vpns ++ [firstField line] else vpns)
      acc
    = acc ++ (lines.filter (fun l => goContains l ":vpn")).map firstField := by
  induction lines generalizing acc with
  | nil => simp
  | cons l ls ih =>
    simp only [List.foldl_cons, List.filter_cons]
    by_cases h : goContains l ":vpn"
    · simp [h, ih]
    · simp [h, ih]

/-- `parseVPNLines` keeps exactly the lines containing `":vpn"`, in order,
and maps each to its first colon-delimited field. -/
theorem parseVPNLines_eq (lines : List String) :
    parseVPNLines lines
    = (lines.filter (fun l => goContains l ":vpn")).map firstField := by
  simpa using parseVPNLines_loop lines []

/-- The name extracted from a line is the text before its first colon. -/
theorem firstField_eq_takeWhile (line : String) :
    firstField line = String.mk (line.data.takeWhile (fun a => a ≠ ':')) := by
  unfold firstField goSplit
  cases hs : splitCharList ':' line.data with
  | nil => exact absurd hs (splitCharList_ne_nil ':' line.data)
  | cons f r =>
    have := splitCharList_head ':' line.data
    rw [hs] at this
    simp at this
    simp [this]

/-- The deactivation loop of `disconnectVPN` appends one formatted result
line and one `connection down` call per entry, in order. -/
theorem disconnectVPN_loop (env : Env) (vpns : List String) (acc : String × List Call) :
    vpns.foldl
      (fun acc vpn =>
        let output := executeCommand env "nmcli" ["connection", "down", vpn]
        (acc.1 ++ ("Disconnecting " ++ vpn ++ ": " ++ output ++ "\n"),
         acc.2 ++ [Call.exec "nmcli" ["connection", "down", vpn]]))
      acc
    = (acc.1 ++ strConcat (vpns.map fun v =>
          "Disconnecting " ++ v ++ ": "
            ++ executeCommand env "nmcli" ["connection", "down", v] ++ "\n"),
       acc.2 ++ vpns.map fun v => Call.exec "nmcli" ["connection", "down", v]) := by
  induction vpns generalizing acc with
  | nil => simp [strConcat]
  | cons v vs ih =>
    rw [List.foldl_cons, ih]
    simp [strConcat, String.append_assoc]

/-- The detail loop of `vpnStatus` appends one labelled block and one
`connection show` call per active entry, in order. -/
theorem vpnStatus_loop (env : Env) (vpns : List String) (acc : String × List Call) :
    vpns.foldl
      (fun acc vpn =>
        let details := executeCommand env "nmcli" ["connection", "show", vpn]
        (acc.1 ++ ("--- " ++ vpn ++ " ---\n" ++ details ++ "\n"),
         acc.2 ++ [Call.exec "nmcli" ["connection", "show", vpn]]))
      acc
    = (acc.1 ++ strConcat (vpns.map fun v =>
          "--- " ++ v ++ " ---\n"
            ++ executeCommand env "nmcli" ["connection", "show", v] ++ "\n"),
       acc.2 ++ vpns.map fun v => Call.exec "nmcli" ["connection", "show", v]) := by
  induction vpns generalizing acc with
  | nil => simp [strConcat]
  | cons v vs ih =>
    rw [List.foldl_cons, ih]
    simp [strConcat, String.append_assoc]

/-- `disconnectVPN` on a non-empty active set: the message is the
concatenation of one formatted line per active entry and the trace is the
listing query followed by one `connection down` call per entry, in order. -/
theorem disconnectVPN_nonempty (env : Env) (h : (getActiveVPNs env).1 ≠ []) :
    disconnectVPN env
    = (strConcat ((getActiveVPNs env).1.map fun v =>
          "Disconnecting " ++ v ++ ": "
            ++ executeCommand env "nmcli" ["connection", "down", v] ++ "\n"),
       (getActiveVPNs env).2
         ++ (getActiveVPNs env).1.map fun v => Call.exec "nmcli" ["connection", "down", v]) := by
  have hlen : ¬(getActiveVPNs env).1.length = 0 := by
    simpa [ List.length_eq_zero] using h
  unfold disconnectVPN
  rw [if_neg hlen, disconnectVPN_loop]
  simp

/-- `disconnectVPN` on an empty active set returns the fixed notice and
performs only the listing query. -/
theorem disconnectVPN_empty (env : Env) (h : (getActiveVPNs env).1 = []) :
    disconnectVPN env
    = ("No active VPN connections found", [Call.exec "nmcli" activeCmdArgs]) := by
  have hlen : (getActiveVPNs env).1.length = 0 := by simp [h]
  unfold disconnectVPN
  rw [if_pos hlen]
  rfl

/-- `vpnStatus` on an empty active set returns the fixed message and
performs only the listing query. -/
theorem vpnStatus_empty (env : Env) (h : (getActiveVPNs env).1 = []) :
    vpnStatus env
    = ("No active VPN connections", [Call.exec "nmcli" activeCmdArgs]) := by
  have hlen : (getActiveVPNs env).1.length = 0 := by simp [h]
  unfold vpnStatus
  rw [if_pos hlen]
  rfl

/-! ## Cleanliness of paths -/

/-- A path component kept verbatim by `filepath.Clean`: non-empty and
neither `"."` nor `".."`. -/
def goodComp (c : List Char) : Bool :=
  !c.isEmpty && !(c == ['.']) && !(c == ['.', '.'])

/-- A rooted path that `filepath.Clean` leaves unchanged: it starts with
`'/'` and all its remaining slash-separated components are kept verbatim. -/
def pathIsClean (p : String) : Bool :=
  match p.data with
  | [] => false
  | a :: rest => a == '/' && (splitCharList '/' rest).all goodComp

/-- On a list of kept-verbatim components, the `Clean` stack keeps
everything, in order. -/
theorem cleanStack_good (rooted : Bool) (comps : List (List Char))
    (h : ∀ c ∈ comps, goodComp c = true) (stack : List (List Char)) :
    cleanStack rooted stack comps = comps.reverse ++ stack := by
  induction comps generalizing stack with
  | nil => simp [cleanStack]
  | cons c cs ih =>
    have hc := h c (List.mem_cons_self _ _)
    simp only [goodComp, Bool.and_eq_true, Bool.not_eq_true', beq_eq_false_iff_ne,
      Bool.not_eq_true] at hc
    obtain ⟨⟨h1, h2⟩, h3⟩ := hc
    unfold cleanStack
    rw [if_neg (by simp [h1, h2]), if_neg h3,
      ih (fun d hd => h d (List.mem_cons_of_mem _ hd))]
    simp

/-- `filepath.Clean` is the identity on clean rooted paths. -/
theorem filepathClean_of_clean (p : String) (h : pathIsClean p = true) :
    filepathClean p = p := by
  unfold pathIsClean at h
  cases hd : p.data with
  | nil => rw [hd] at h; simp at h
  | cons a rest =>
    rw [hd] at h
    simp only [Bool.and_eq_true, beq_iff_eq] at h
    obtain ⟨ha, hall⟩ := h
    subst ha
    have hne : p ≠ "" := by
      intro hp
      rw [hp] at hd
      simp at hd
    have hgood : ∀ c ∈ splitCharList '/' rest, goodComp c = true :=
      fun c hc => List.all_eq_true.mp hall c hc
    have hstack : cleanStack true [] (splitCharList '/' ('/' :: rest))
        = (splitCharList '/' rest).reverse := by
      have hsplit : splitCharList '/' ('/' :: rest) = [] :: splitCharList '/' rest := by
        rw [splitCharList, if_pos rfl]
      rw [hsplit]
      unfold cleanStack
      rw [if_pos (by simp)]
      rw [cleanStack_good true _ hgood []]
      simp
    unfold filepathClean
    rw [if_neg hne]
    simp only [hd, List.head?_cons, beq_self_eq_true, if_true, hstack, List.reverse_reverse,
      joinChar_splitCharList]
    rw [← hd]

/-- `filepath.Join` of two non-empty elements whose slash-joined
concatenation is already clean is plain concatenation with a slash. -/
theorem filepathJoin_clean (home x : String) (hhome : home ≠ "") (hx : x ≠ "")
    (h : pathIsClean (home ++ "/" ++ x) = true) :
    filepathJoin home x = home ++ "/" ++ x := by
  unfold filepathJoin
  rw [if_neg (by simp [hhome]), if_neg hhome, if_neg hx]
  exact filepathClean_of_clean _ h

/-- Appending a suffix makes `strings.HasSuffix` hold. -/
theorem goHasSuffix_append (p s : String) : goHasSuffix (p ++ s) s = true := by
  unfold goHasSuffix
  rw [String.data_append]
  simp [ List.isSuffixOf_iff_suffix]

/-! ## Concrete environments used as witnesses -/

/-- An environment in which every external invocation succeeds and prints
the fixed listing `s`. -/
def listingEnv (s : String) : Env :=
  { run := fun _ _ => (none, s),
    homeDir := Except.error "no user",
    write := fun _ _ => none }

/-- An environment with two active VPN entries in which every
deactivation attempt fails. -/
def envTwoActiveFailing : Env :=
  { run := fun _ args =>
      if args == activeCmdArgs then (none, "a:vpn\nb:vpn")
      else (some "exit status 4", "boom"),
    homeDir := Except.error "no user",
    write := fun _ _ => none }

/-! ## Claims -/

/-- C2: over an active set of size `k`, `disconnectVPN` attempts a
deactivation for every one of the `k` entries sequentially in listing
order, without short-circuiting on failure (the trace is the listing query
followed by exactly one `connection down` call per entry, for an arbitrary
environment, including one in which every deactivation fails), and the
combined message is the concatenation of exactly `k` per-entry result
lines. -/
theorem C2_deactivateAll_per_entry (env : Env) (h : (getActiveVPNs env).1 ≠ []) :
    (disconnectVPN env).1
      = strConcat ((getActiveVPNs env).1.map fun v =>
          "Disconnecting " ++ v ++ ": "
            ++ executeCommand env "nmcli" ["connection", "down", v] ++ "\n")
    ∧ (disconnectVPN env).2
      = (getActiveVPNs env).2
          ++ (getActiveVPNs env).1.map (fun v => Call.exec "nmcli" ["connection", "down", v])
    ∧ ((getActiveVPNs env).1.map fun v =>
          "Disconnecting " ++ v ++ ": "
            ++ executeCommand env "nmcli" ["connection", "down", v] ++ "\n").length
      = (getActiveVPNs env).1.length := by
  rw [disconnectVPN_nonempty env h]
  exact ⟨rfl, rfl, List.length_map _ _⟩

/-- Witness for C2: a concrete environment with two active entries, both
of whose deactivations fail; both are still attempted and both result
lines appear. -/
theorem C2_deactivateAll_per_entry_witness :
    (getActiveVPNs envTwoActiveFailing).1 ≠ []
    ∧ (disconnectVPN envTwoActiveFailing).1
      = strConcat ((getActiveVPNs envTwoActiveFailing).1.map fun v =>
          "Disconnecting " ++ v ++ ": "
            ++ executeCommand envTwoActiveFailing "nmcli" ["connection", "down", v] ++ "\n")
    ∧ (disconnectVPN envTwoActiveFailing).2
      = (getActiveVPNs envTwoActiveFailing).2
          ++ (getActiveVPNs envTwoActiveFailing).1.map fun v =>
              Call.exec "nmcli" ["connection", "down", v] :=
  ⟨by decide,
   (C2_deactivateAll_per_entry envTwoActiveFailing (by decide)).1,
   (C2_deactivateAll_per_entry envTwoActiveFailing (by decide)).2.1⟩

/-- C7: on an empty active set, `vpnStatus` returns the fixed
no-active-connections message and its trace is the single listing query —
in particular it contains no detail-fetch (`connection show <name>`)
invocation. -/
theorem C7_status_empty_active (env : Env) (h : (getActiveVPNs env).1 = []) :
    (vpnStatus env).1 = "No active VPN connections"
    ∧ (vpnStatus env).2 = [Call.exec "nmcli" activeCmdArgs]
    ∧ ∀ v : String, Call.exec "nmcli" ["connection", "show", v] ∉ (vpnStatus env).2 := by
  rw [vpnStatus_empty env h]
  refine ⟨rfl, rfl, fun v => ?_⟩
  simp [activeCmdArgs]

/-- Witness for C7: an environment whose active listing reports only a
non-VPN entry. -/
theorem C7_status_empty_active_witness :
    (getActiveVPNs (listingEnv "eth0:ethernet")).1 = []
    ∧ (vpnStatus (listingEnv "eth0:ethernet")).1 = "No active VPN connections"
    ∧ (vpnStatus (listingEnv "eth0:ethernet")).2 = [Call.exec "nmcli" activeCmdArgs] :=
  ⟨by decide,
   (C7_status_empty_active (listingEnv "eth0:ethernet") (by decide)).1,
   (C7_status_empty_active (listingEnv "eth0:ethernet") (by decide)).2.1⟩

/-- C8: on an empty active set, `disconnectVPN` returns the fixed
nothing-was-active notice and its trace is the single listing query — in
particular it contains no deactivation (`connection down <name>`)
invocation. -/
theorem C8_deactivateAll_empty_active (env : Env) (h : (getActiveVPNs env).1 = []) :
    (disconnectVPN env).1 = "No active VPN connections found"
    ∧ (disconnectVPN env).2 = [Call.exec "nmcli" activeCmdArgs]
    ∧ ∀ v : String, Call.exec "nmcli" ["connection", "down", v] ∉ (disconnectVPN env).2 := by
  rw [disconnectVPN_empty env h]
  refine ⟨rfl, rfl, fun v => ?_⟩
  simp [activeCmdArgs]

/-- Witness for C8: an environment whose active listing reports only a
non-VPN entry. -/
theorem C8_deactivateAll_empty_active_witness :
    (getActiveVPNs (listingEnv "eth0:ethernet")).1 = []
    ∧ (disconnectVPN (listingEnv "eth0:ethernet")).1 = "No active VPN connections found"
    ∧ (disconnectVPN (listingEnv "eth0:ethernet")).2 = [Call.exec "nmcli" activeCmdArgs] :=
  ⟨by decide,
   (C8_deactivateAll_empty_active (listingEnv "eth0:ethernet") (by decide)).1,
   (C8_deactivateAll_empty_active (listingEnv "eth0:ethernet") (by decide)).2.1⟩

/-- An environment in which the listing query fails with a clean error
message (no `":vpn"` anywhere in the captured output). -/
def envErrClean : Env :=
  { run := fun _ _ => (some "exit status 10", "connection not found"),
    homeDir := Except.error "no user",
    write := fun _ _ => none }

/-- An environment in which the listing query fails but the captured
error output itself contains a line with `":vpn"`. -/
def envErrVpnText : Env :=
  { run := fun _ _ => (some "boom", "x:vpn"),
    homeDir := Except.error "no user",
    write := fun _ _ => none }

/-- An environment in which the privileged export query succeeds but its
output carries the backend's error text. -/
def envExportError : Env :=
  { run := fun _ _ => (none, "Error: connection export not supported"),
    homeDir := Except.error "no user",
    write := fun _ _ => some "permission denied" }

/-- The classification predicate the specification words state: the second
colon-delimited field of the line equals the literal token `"vpn"`. -/
def claimIsVPNLine (line : String) : Bool :=
  (goSplit ':' line).get? 1 == some "vpn"

/-- C1 (amended): a line is classified as a VPN entry iff it contains the
substring `":vpn"` anywhere; the returned entry name is the text before
the first colon; the VPN list is exactly the order-preserving map of the
name extraction over the classified lines (hence `N` classified lines give
exactly `N` entries). -/
theorem C1_vpn_line_classification (env : Env) :
    getVPNList env
      = ((goSplit '\n' (goTrimSpace (executeCommand env "nmcli" listCmdArgs))).filter
          (fun l => goContains l ":vpn")).map firstField
    ∧ ∀ line : String,
        firstField line = String.mk (line.data.takeWhile (fun a => a ≠ ':')) :=
  ⟨parseVPNLines_eq _, firstField_eq_takeWhile⟩

/-- C1 counterexample: the line `"work:vpn-extra"` has second field
`"vpn-extra" ≠ "vpn"`, yet the code classifies it (it contains `":vpn"`)
and returns the entry `"work"` — refuting the claimed iff. -/
theorem C1_vpn_line_classification_counterexample :
    claimIsVPNLine "work:vpn-extra" = false
    ∧ getVPNList (listingEnv "work:vpn-extra") = ["work"] := by decide

/-- C3: whenever the backend's export output signals an error (contains
`"Error"`), and the run reaches the export call (a non-empty destination,
or a resolvable home directory), `exportVPN` returns the backend output
verbatim and never performs a file write. -/
theorem C3_export_error_skips_write (env : Env) (name path : String)
    (hres : path ≠ "" ∨ ∃ home, env.homeDir = Except.ok home)
    (herr : goContains (executeCommand env "sudo" ["nmcli", "connection", "export", name])
        "Error" = true) :
    (exportVPN env name path).1
      = executeCommand env "sudo" ["nmcli", "connection", "export", name]
    ∧ ∀ p c : String, Call.write p c ∉ (exportVPN env name path).2 := by
  have hok : ∃ o, resolveExportPath env.homeDir name path = Except.ok o := by
    unfold resolveExportPath
    rcases hres with hp | ⟨home, hh⟩
    · rw [if_neg hp]
      exact ⟨_, rfl⟩
    · by_cases hp : path = ""
      · rw [if_pos hp, hh]
        exact ⟨_, rfl⟩
      · rw [if_neg hp]
        exact ⟨_, rfl⟩
  obtain ⟨o, ho⟩ := hok
  constructor
  · simp [exportVPN, ho, herr]
  · intro p c
    simp [exportVPN, ho, herr]

/-- Witness for C3: a backend whose export output carries error text; the
result is that output and, in particular, the (failing) file write is
never attempted. -/
theorem C3_export_error_skips_write_witness :
    (("cfg" : String) ≠ "" ∨ ∃ home, envExportError.homeDir = Except.ok home)
    ∧ goContains (executeCommand envExportError "sudo" ["nmcli", "connection", "export", "work-vpn"])
        "Error" = true
    ∧ (exportVPN envExportError "work-vpn" "cfg").1
      = executeCommand envExportError "sudo" ["nmcli", "connection", "export", "work-vpn"] :=
  ⟨Or.inl (by decide), by decide,
   (C3_export_error_skips_write envExportError "work-vpn" "cfg" (Or.inl (by decide))
     (by decide)).1⟩

/-- C4 (amended): the empty destination resolves to
`filepath.Join(home, name + ".ovpn")`, which is verbatim
`<home>/<name>.ovpn` whenever that concatenation is already a clean rooted
path; a non-empty destination lacking the `".ovpn"` suffix gets it
appended; a non-empty destination already carrying it is used unchanged;
and the suffixing step is idempotent. -/
theorem C4_export_path_resolution (home name path : String) (hhome : home ≠ "")
    (hclean : pathIsClean (home ++ "/" ++ (name ++ ".ovpn")) = true) :
    resolveExportPath (Except.ok home) name ""
      = Except.ok (home ++ "/" ++ (name ++ ".ovpn"))
    ∧ (∀ hd : Except String String, path ≠ "" → goHasSuffix path ".ovpn" = false →
        resolveExportPath hd name path = Except.ok (path ++ ".ovpn"))
    ∧ (∀ hd : Except String String, path ≠ "" → goHasSuffix path ".ovpn" = true →
        resolveExportPath hd name path = Except.ok path)
    ∧ appendOvpnSuffix (appendOvpnSuffix path) = appendOvpnSuffix path := by
  have hxne : name ++ ".ovpn" ≠ "" := by
    intro hx
    have hl := congrArg String.length hx
    rw [String.length_append] at hl
    have h5 : (".ovpn" : String).length = 5 := rfl
    have h0 : ("" : String).length = 0 := rfl
    omega
  refine ⟨?_, ?_, ?_, ?_⟩
  · unfold resolveExportPath
    rw [if_pos rfl]
    show Except.ok (filepathJoin home (name ++ ".ovpn")) = _
    rw [filepathJoin_clean home (name ++ ".ovpn") hhome hxne hclean]
  · intro hd hp hsuf
    unfold resolveExportPath appendOvpnSuffix
    rw [if_neg hp, hsuf]
    simp
  · intro hd hp hsuf
    unfold resolveExportPath appendOvpnSuffix
    rw [if_neg hp, hsuf]
    simp
  · by_cases hsuf : goHasSuffix path ".ovpn" = true
    · unfold appendOvpnSuffix
      rw [hsuf]
      simp [hsuf]
    · have hsuf' : goHasSuffix path ".ovpn" = false := by
        simpa using hsuf
      unfold appendOvpnSuffix
      rw [hsuf']
      simp [goHasSuffix_append]

/-- Witness for C4: home `"/home/user"`, name `"work-vpn"`, destination
`"foo"`. -/
theorem C4_export_path_resolution_witness :
    ("/home/user" : String) ≠ ""
    ∧ pathIsClean ("/home/user" ++ "/" ++ ("work-vpn" ++ ".ovpn")) = true
    ∧ resolveExportPath (Except.ok "/home/user") "work-vpn" ""
        = Except.ok ("/home/user" ++ "/" ++ ("work-vpn" ++ ".ovpn"))
    ∧ resolveExportPath (Except.error "no user") "work-vpn" "foo"
        = Except.ok ("foo" ++ ".ovpn")
    ∧ appendOvpnSuffix (appendOvpnSuffix "foo") = appendOvpnSuffix "foo" :=
  ⟨by decide, by decide,
   (C4_export_path_resolution "/home/user" "work-vpn" "foo" (by decide) (by decide)).1,
   (C4_export_path_resolution "/home/user" "work-vpn" "foo" (by decide) (by decide)).2.1
     (Except.error "no user") (by decide) (by decide),
   (C4_export_path_resolution "/home/user" "work-vpn" "foo" (by decide) (by decide)).2.2.2⟩

/-- C4 counterexample: with name `"a//b"`, the default destination is the
`Clean`ed join `"/home/user/a/b.ovpn"`, not the verbatim concatenation
`<home>/<name>.ovpn`. -/
theorem C4_export_path_resolution_counterexample :
    resolveExportPath (Except.ok "/home/user") "a//b" ""
      = Except.ok "/home/user/a/b.ovpn"
    ∧ ("/home/user/a/b.ovpn" : String) ≠ "/home/user" ++ "/" ++ ("a//b" ++ ".ovpn") :=
  ⟨rfl, by decide⟩

/-- C5 (amended): an erroring list query is handled totally and softly:
the captured command output is `"Error: <err>\n<out>"` (the raw error
text preserved verbatim), and whenever no line of that captured output
contains the substring `":vpn"` the returned entry list is empty. -/
theorem C5_soft_failure_on_error (env : Env) (e out : String)
    (herr : env.run "nmcli" listCmdArgs = (some e, out))
    (hno : ∀ l ∈ goSplit '\n' (goTrimSpace (executeCommand env "nmcli" listCmdArgs)),
        goContains l ":vpn" = false) :
    executeCommand env "nmcli" listCmdArgs = "Error: " ++ e ++ "\n" ++ out
    ∧ getVPNList env = [] := by
  constructor
  · simp [executeCommand, herr]
  · unfold getVPNList
    rw [parseVPNLines_eq]
    have hnil : (goSplit '\n' (goTrimSpace (executeCommand env "nmcli" listCmdArgs))).filter
        (fun l => goContains l ":vpn") = [] :=
      List.filter_eq_nil_iff.mpr (by intro a ha; simpa using hno a ha)
    rw [hnil]
    rfl

/-- Witness for C5: a failing listing query with an ordinary error
message yields the empty list, the error text preserved in the captured
output. -/
theorem C5_soft_failure_on_error_witness :
    envErrClean.run "nmcli" listCmdArgs = (some "exit status 10", "connection not found")
    ∧ executeCommand envErrClean "nmcli" listCmdArgs
        = "Error: " ++ "exit status 10" ++ "\n" ++ "connection not found"
    ∧ getVPNList envErrClean = [] :=
  ⟨by decide,
   (C5_soft_failure_on_error envErrClean "exit status 10" "connection not found"
     (by decide) (by decide)).1,
   (C5_soft_failure_on_error envErrClean "exit status 10" "connection not found"
     (by decide) (by decide)).2⟩

/-- C5 counterexample: a failing query whose captured error output itself
contains `":vpn"` makes `getVPNList` return a (garbage) non-empty list, so
"every erroring query returns the empty sequence" is false as stated. -/
theorem C5_soft_failure_on_error_counterexample :
    (envErrVpnText.run "nmcli" listCmdArgs).1 = some "boom"
    ∧ getVPNList envErrVpnText = ["x"] := by decide

/-- C6: the fixed listing scenario from the specification. -/
theorem C6_listing_scenario :
    getVPNList (listingEnv "home:802-11-wireless\nwork-vpn:vpn\nalt-vpn:vpn")
      = ["work-vpn", "alt-vpn"] := by decide

/-- The rendering the claim attributes to the display-oriented listing:
the fixed notice on an empty name list, otherwise a header followed by the
names in order, numbered from 1. -/
def renderVPNList (ns : List String) : String :=
  if ns = [] then "No VPN connections found"
  else
    "Available VPN connections:\n"
      ++ strConcat (ns.enum.map fun p => toString (p.1 + 1) ++ ". " ++ p.2 ++ "\n")

/-- `listVPNs` is exactly the rendering of `getVPNList`. -/
theorem listVPNs_render (env : Env) :
    listVPNs env = renderVPNList (getVPNList env) := by
  unfold listVPNs renderVPNList getVPNList
  by_cases h :
      parseVPNLines (goSplit '\n' (goTrimSpace (executeCommand env "nmcli" listCmdArgs))) = []
  · rw [if_pos (by simp [h]), if_pos h]
  · have hlen :
        ¬(parseVPNLines (goSplit '\n' (goTrimSpace (executeCommand env "nmcli" listCmdArgs)))).length
          = 0 := by
      simpa [ List.length_eq_zero] using h
    rw [if_neg hlen, if_neg h]
    exact foldl_append_strConcat (fun p => toString (p.1 + 1) ++ ". " ++ p.2 ++ "\n")
      (parseVPNLines (goSplit '\n' (goTrimSpace (executeCommand env "nmcli" listCmdArgs)))).enum
      "Available VPN connections:\n"

/-- On a non-empty name list the rendering never equals the fixed
notice (the header alone is longer than the notice). -/
theorem renderVPNList_ne_notice (ns : List String) (h : ns ≠ []) :
    renderVPNList ns ≠ "No VPN connections found" := by
  unfold renderVPNList
  rw [if_neg h]
  intro hc
  have hlen := congrArg String.length hc
  rw [String.length_append] at hlen
  have h1 : ("Available VPN connections:\n" : String).length = 27 := rfl
  have h2 : ("No VPN connections found" : String).length = 24 := rfl
  omega

/-- C9: the display-oriented `listVPNs` agrees with the
selection-oriented `getVPNList`: it prints the fixed notice exactly when
`getVPNList` is empty, and otherwise renders exactly the names
`getVPNList` returns, in order, numbered from 1. -/
theorem C9_listVPNs_agrees_getVPNList (env : Env) :
    listVPNs env = renderVPNList (getVPNList env)
    ∧ (listVPNs env = "No VPN connections found" ↔ getVPNList env = []) := by
  have hr := listVPNs_render env
  refine ⟨hr, ?_, ?_⟩
  · intro h
    by_contra hne
    exact renderVPNList_ne_notice _ hne (hr.symm.trans h)
  · intro h
    rw [hr, h]
    rfl

/-- C10: name extraction is total — splitting any string on `":"` yields
at least one field — and a line with an empty first field such as
`":vpn"` yields an entry named `""` rather than being skipped. -/
theorem C10_first_field_total :
    (∀ s : String, goSplit ':' s ≠ [])
    ∧ getVPNList (listingEnv ":vpn") = [""] :=
  ⟨goSplit_ne_nil ':', by decide⟩

end CharmVPN
